import Mathlib

/-!
Shallow embedding of the "Vibe Check" text-compatibility app
(profiles, conversation replay, progressive compatibility scoring).

Sources embedded:
  * src/app/replay/page.tsx (and src/unnamed/part_004): the replay
    computation, lines 76-78 / 84-86.
  * src/app/profile/page.tsx, handleSave lines 56-89: the uploaded
    messages JSON parsing and the request body field.
  * src/unnamed/part_003: the two handleProfileClick variants of the
    profiles pages.
  * lib/mockData.ts (generateMockConversation, calculateProgressiveInsights)
    is imported by the pages but its file is not part of the source tree;
    those operations are modelled from the spec where a claim needs them,
    each such definition marked "Modelled from the spec".

JavaScript numbers on the replay path are modelled as rationals; floors
are mathematical floors (Math.floor on a nonnegative value).
-/

namespace VibeCheck

/-- A chat message, data model of the spec (section 3) and of the fields the
replay page reads (`id`, `senderId`, `text`). -/
structure Message where
  id : String
  senderId : String
  text : String
  timestampSeq : Nat
  deriving Repr, DecidableEq

/-- A persona/profile as the pages use it (`id`, `name`, `color`, `bio`). -/
structure Profile where
  id : String
  name : String
  color : String
  bio : Option String
  deriving Repr, DecidableEq

/-- A generated conversation: the two profiles and the message list
(`conversation.profileA`, `conversation.profileB`, `conversation.messages`
as read by the replay page). -/
structure Conversation where
  id : String
  profileA : Profile
  profileB : Profile
  messages : List Message
  deriving Repr, DecidableEq

/-- An Insight value as the spec's data model describes it:
`{id, title, score: int[0,100], description, details}`; the score is kept
as a natural number. -/
structure Insight where
  id : String
  title : String
  score : Nat
  description : String
  details : String
  deriving Repr, DecidableEq

/-- Error taxonomy of the spec (section 7) restricted to what the embedded
operations can raise. -/
inductive SpecError where
  | invalidInput
  deriving Repr, DecidableEq

/-- Seedable random source for the scoring jitter (spec section 4.6: the
jitter "must be isolated behind a seedable random source so tests can
disable it"; seed 0 disables the jitter). -/
structure Rng where
  seed : Nat
  state : Nat
  deriving Repr, DecidableEq

/-- One linear-congruential step of the jitter source. -/
def Rng.next (s : Nat) : Nat :=
  (s * 1103515245 + 12345) % 2147483648

/-- Draw one jitter value in [-5, 5] (spec section 4.6: "a small bounded
stochastic jitter (plus or minus 5 absolute points)"). A source seeded to
zero is disabled: it yields 0 and does not advance. -/
def Rng.jitter (r : Rng) : Int × Rng :=
  if r.seed = 0 then (0, r)
  else ((Rng.next r.state % 11 : Int) - 5, ⟨r.seed, Rng.next r.state⟩)

/-- The replay page's visible-message count,
src/app/replay/page.tsx line 76 (= src/unnamed/part_004 line 84):
`Math.max(1, Math.floor(conversation.messages.length * progress))`. -/
def visibleMessageCount (c : Conversation) (progress : ℚ) : Nat :=
  max 1 (Int.toNat ⌊(c.messages.length : ℚ) * progress⌋)

/-- Modelled from the spec: `calculateProgressiveInsights` lives in
lib/mockData.ts, which is not part of the source tree (the replay pages
only reference it). Spec section 4.6: each factor's mature score is computed from
the full transcript by a fixed lexical metric (the exact metric is "an
implementation decision"); here it is a deterministic hash of the transcript
text lengths, reduced into [0, 100]. -/
def matureScore (c : Conversation) (k : Nat) : Nat :=
  ((c.messages.map (fun m => m.text.length)).sum + 13 * k + 37) % 101

/-- Modelled from the spec: the fixed, documented factor list of the scorer
(spec section 4.6: "e.g., overall, communication-style, flow,
topic-alignment, emotional-tone"). -/
def factorIdentities : List (String × String) :=
  [("overall", "Overall"),
   ("communication-style", "Communication Style"),
   ("flow", "Flow"),
   ("topic-alignment", "Topic Alignment"),
   ("emotional-tone", "Emotional Tone")]

/-- Clamp an integer into [0, 100] and return it as a natural number. -/
def clamp100 (x : Int) : Nat :=
  Int.toNat (min 100 (max 0 x))

/-- Modelled from the spec: one factor's progressive score at a given
visible-message count (spec section 4.6: "the progressive value at partial
prefixes is matureScore * (visibleMessageCount / totalMessages) before
jitter, clamped to [0,100]"; "Insight scores are always integers"). -/
def progressiveScore (c : Conversation) (k visible : Nat) (j : Int) : Nat :=
  clamp100 ((matureScore c k * visible / c.messages.length : Nat) + j)

/-- Modelled from the spec: `calculateProgressiveInsights` (the scorer,
`scoreAt` of section 6) from lib/mockData.ts, absent from the source tree.
Spec sections 4.6 and 7: computes `visibleMessageCount` by the documented
formula, produces one Insight per fixed factor identity with an integer
score in [0,100], draws one jitter value per factor from the seedable
source, and fails with `InvalidInput` exactly on an empty message list.
`insightsLoop` walks the indexed factor list threading the jitter source. -/
def insightsLoop (c : Conversation) (visible : Nat) :
    List (Nat × (String × String)) → Rng → List Insight × Rng
  | [], r => ([], r)
  | kf :: rest, r =>
      let j := r.jitter.1
      let r' := r.jitter.2
      let s := progressiveScore c kf.1 visible j
      let tl := insightsLoop c visible rest r'
      (⟨kf.2.1, kf.2.2, s, "", ""⟩ :: tl.1, tl.2)

/-- Modelled from the spec: the scorer entry point (`scoreAt` of section 6);
see `insightsLoop` above for the factor walk. -/
def calculateProgressiveInsights (c : Conversation) (frac : ℚ) (r : Rng) :
    Except SpecError (List Insight) × Rng :=
  if c.messages.length = 0 then (Except.error SpecError.invalidInput, r)
  else
    let out := insightsLoop c (visibleMessageCount c frac) factorIdentities.enum r
    (Except.ok out.1, out.2)

/-- What the replay page computes on each render, src/app/replay/page.tsx
lines 76-78 (= src/unnamed/part_004 lines 84-86): the visible-message
count, the visible messages `conversation.messages.slice(0,
visibleMessageCount)` (slice returns a fresh array and leaves
`conversation.messages` untouched), and the current insights. The
conversation state itself is carried through unchanged: the render writes
no state. -/
structure ReplayView where
  count : Nat
  visibleMessages : List Message
  currentInsights : Except SpecError (List Insight)
  conversation : Conversation
  deriving Repr

/-- The replay render computation over the loaded conversation and the
slider progress (src/app/replay/page.tsx lines 76-78). -/
def replayRender (c : Conversation) (progress : ℚ) (r : Rng) : ReplayView :=
  { count := visibleMessageCount c progress
    visibleMessages := c.messages.take (visibleMessageCount c progress)
    currentInsights := (calculateProgressiveInsights c progress r).1
    conversation := c }

/-- A JavaScript runtime value, as far as the profile page's duck-typed
message parsing observes one: strings, numbers, booleans, null, undefined,
arrays and plain objects (an object is its ordered field list). -/
inductive JSVal where
  | str (s : String)
  | num (q : ℚ)
  | jsBool (b : Bool)
  | null
  | undef
  | arr (elems : List JSVal)
  | obj (fields : List (String × JSVal))

/-- JavaScript `typeof`. `typeof null`, arrays and plain objects are all
"object". -/
def typeOf : JSVal → String
  | .str _ => "string"
  | .num _ => "number"
  | .jsBool _ => "boolean"
  | .undef => "undefined"
  | .null => "object"
  | .arr _ => "object"
  | .obj _ => "object"

/-- JavaScript truthiness of a value. -/
def truthy : JSVal → Bool
  | .str s => !(s == "")
  | .num q => !(q == 0)
  | .jsBool b => b
  | .null => false
  | .undef => false
  | .arr _ => true
  | .obj _ => true

/-- A thrown JavaScript error; inside handleSave's try block it lands in
the catch branch (alert and early return). -/
inductive JsError where
  | typeError
  deriving Repr, DecidableEq

/-- JavaScript member access `v[k]`: throws TypeError on null/undefined,
looks the key up on objects, and yields undefined on other values and on
missing keys. -/
def getField : JSVal → String → Except JsError JSVal
  | .null, _ => Except.error JsError.typeError
  | .undef, _ => Except.error JsError.typeError
  | .obj fields, k =>
      Except.ok (((fields.find? (fun p => p.1 == k)).map Prod.snd).getD JSVal.undef)
  | _, _ => Except.ok JSVal.undef

/-- The messages parsing of handleSave, src/app/profile/page.tsx lines
57-76, applied to a successfully JSON-parsed payload: `messages` starts as
the empty list; an array whose first element is a string is taken as-is; an
array whose first element has typeof "object" and a truthy `text` member is
mapped over `m.text`; anything else leaves `messages` empty. A thrown
TypeError (member access on null) is the `Except.error` case, caught by the
surrounding try/catch. -/
def parseMessages (parsed : JSVal) : Except JsError (List JSVal) :=
  match parsed with
  | .arr elems =>
      let first := elems.getD 0 JSVal.undef
      if typeOf first = "string" then Except.ok elems
      else if typeOf first = "object" then
        match getField first "text" with
        | Except.error e => Except.error e
        | Except.ok t =>
            if truthy t then elems.mapM (fun m => getField m "text")
            else Except.ok []
      else Except.ok []
  | _ => Except.ok []

/-- The `messages` field of the POST body built by handleSave,
src/app/profile/page.tsx line 88: `messages.length > 0 ? messages : null`
(null modelled as `none`). -/
def messagesBodyField (messages : List JSVal) : Option (List JSVal) :=
  if messages.length > 0 then some messages else none

/-- End-to-end: the `messages` request-body field handleSave sends for a
given parsed payload, or the thrown error that aborts the save. -/
def handleSaveMessages (parsed : JSVal) : Except JsError (Option (List JSVal)) :=
  (parseMessages parsed).map messagesBodyField

/-- The normalization the spec's input boundary asks for (sections 6 and
9): a record's text string — a plain string is its own text, an object
contributes its `text` field. Stated from the spec's words, to be compared
with what `parseMessages` actually returns. -/
def specTextOf (record : JSVal) : String :=
  match record with
  | .str s => s
  | .obj fields =>
      match (fields.find? (fun p => p.1 == "text")).map Prod.snd with
      | some (.str s) => s
      | _ => ""
  | _ => ""

/-- The first handleProfileClick of the profiles pages,
src/unnamed/part_003 lines 13-24 (and 192-203): clicking a selected
profile removes it, clicking a new one appends it only while fewer than two
are selected, and otherwise nothing changes (the buttons are disabled). -/
def handleProfileClick (selected : List Profile) (profile : Profile) :
    List Profile :=
  if (selected.find? (fun p => p.id == profile.id)).isSome then
    selected.filter (fun p => !(p.id == profile.id))
  else if selected.length < 2 then
    selected ++ [profile]
  else
    selected

/-- The second handleProfileClick variant, src/unnamed/part_003 lines
422-433, which tracks selected profile ids: deselect, select while fewer
than two, else replace the first (oldest) selection by
`[selectedProfiles[1], profileId]`. -/
def handleProfileClickIds (selected : List String) (profileId : String) :
    List String :=
  if selected.contains profileId then
    selected.filter (fun pid => !(pid == profileId))
  else if selected.length < 2 then
    selected ++ [profileId]
  else
    [selected.getD 1 "", profileId]

/-- The invariant of the profiles pages' selection state: at most two
entries and no duplicate profile ids. -/
def selectionInvariant (selected : List String) : Prop :=
  selected.length ≤ 2 ∧ selected.Nodup

/-- The selection invariant for the variant that stores whole profiles,
with distinctness by profile id. -/
def selectionInvariantP (selected : List Profile) : Prop :=
  selected.length ≤ 2 ∧ (selected.map (fun p => p.id)).Nodup

/-- Modelled from the spec: the generation step of the simulator is an
external text-completion capability (spec section 4.5); its output content
is opaque, modelled as a deterministic function of the acting persona and
the turn number. -/
def genText (p : Profile) (seq : Nat) : String :=
  p.name ++ " turn " ++ toString seq

/-- Modelled from the spec: the simulator's turn loop (spec section 4.5):
each turn the acting persona emits the next message, it is appended to the
transcript, and the turn flips, until the configured maximum turn count is
reached. -/
def simRun (acting other : Profile) : Nat → Nat → List Message
  | 0, _ => []
  | fuel + 1, seq =>
      { id := "m" ++ toString seq
        senderId := acting.id
        text := genText acting seq
        timestampSeq := seq } :: simRun other acting fuel (seq + 1)

/-- Modelled from the spec: `runSimulation` / `generateMockConversation`
lives in lib/mockData.ts, which is not part of the source tree (the
profiles pages only import it). Spec sections 4.5, 6 and 8: the initial
turn belongs to personaA, or to personaB when an optional starter text is
supplied; the run produces exactly `maxTurns` messages with alternating
senders. -/
def runSimulation (pa pb : Profile) (starter : Option String)
    (maxTurns : Nat) : Conversation :=
  let firstActing := if starter.isSome then pb else pa
  let secondActing := if starter.isSome then pa else pb
  { id := "conv-" ++ pa.id ++ "-" ++ pb.id
    profileA := pa
    profileB := pb
    messages := simRun firstActing secondActing maxTurns 0 }

/-- A context window, data model of the spec (section 3). -/
structure Window where
  id : String
  personaId : String
  centerIndex : Nat
  text : String
  sourceMessageIds : List String
  deriving Repr, DecidableEq

/-- Render one message with its sender label (spec section 4.1: "each
rendered with its own sender label"). -/
def renderWithSender (m : Message) : String :=
  m.senderId ++ ": " ++ m.text

/-- Modelled from the spec: `buildWindows` (spec section 4.1) has no
implementation in the source tree. For each position i the window text is
the concatenation of the messages in [i - radius, i + radius] clamped to
the list bounds, each with its sender label; fails with `InvalidInput` when
the message list is empty or the radius is negative. `windowAt` builds the
window centered at position i. -/
def windowAt (personaId : String) (messages : List Message) (r : Nat)
    (i : Nat) : Window :=
  let lo := i - r
  let ctx := (messages.drop lo).take (min (messages.length - 1) (i + r) + 1 - lo)
  { id := personaId ++ "-w" ++ toString i
    personaId := personaId
    centerIndex := i
    text := String.intercalate " " (ctx.map renderWithSender)
    sourceMessageIds := ctx.map (fun m => m.id) }

def buildWindows (personaId : String) (messages : List Message)
    (radius : Int) : Except SpecError (List Window) :=
  if messages.length = 0 ∨ radius < 0 then Except.error SpecError.invalidInput
  else
    Except.ok ((List.range messages.length).map
      (windowAt personaId messages radius.toNat))

/-! Concrete sample data used by the witness theorems. -/

def alice : Profile :=
  { id := "alice", name := "Alice", color := "#ff0000", bio := none }

def bob : Profile :=
  { id := "bob", name := "Bob", color := "#0000ff", bio := none }

def sampleMessages : List Message :=
  [ { id := "m0", senderId := "alice", text := "hey", timestampSeq := 0 },
    { id := "m1", senderId := "bob", text := "hi there", timestampSeq := 1 },
    { id := "m2", senderId := "alice", text := "how are you", timestampSeq := 2 } ]

def sampleConv : Conversation :=
  { id := "c0", profileA := alice, profileB := bob, messages := sampleMessages }

def rng0 : Rng := { seed := 0, state := 0 }

/-! Helper lemmas about the scorer. -/

theorem clamp100_le (x : Int) : clamp100 x ≤ 100 := by
  have h : min 100 (max 0 x) ≤ (100 : Int) := min_le_left _ _
  unfold clamp100
  omega

theorem insightsLoop_scores (c : Conversation) (visible : Nat) :
    ∀ (kfs : List (Nat × (String × String))) (r : Rng) (i : Insight),
      i ∈ (insightsLoop c visible kfs r).1 → i.score ≤ 100 := by
  intro kfs
  induction kfs with
  | nil => intro r i hi; simp [insightsLoop] at hi
  | cons kf rest ih =>
      intro r i hi
      simp only [insightsLoop, List.mem_cons] at hi
      rcases hi with hi | hi
      · subst hi
        exact clamp100_le _
      · exact ih _ _ hi

theorem insightsLoop_identities (c : Conversation) (visible : Nat) :
    ∀ (kfs : List (Nat × (String × String))) (r : Rng),
      ((insightsLoop c visible kfs r).1.map (fun i => (i.id, i.title))) =
        kfs.map (fun kf => kf.2) := by
  intro kfs
  induction kfs with
  | nil => intro r; simp [insightsLoop]
  | cons kf rest ih => intro r; simp [insightsLoop, ih]

theorem insightsLoop_rng_frozen (c : Conversation) (visible : Nat) :
    ∀ (kfs : List (Nat × (String × String))) (r : Rng),
      r.seed = 0 → (insightsLoop c visible kfs r).2 = r := by
  intro kfs
  induction kfs with
  | nil => intro r _; simp [insightsLoop]
  | cons kf rest ih =>
      intro r h
      have hj : r.jitter = (0, r) := by simp [Rng.jitter, h]
      simp only [insightsLoop, hj]
      exact ih r h

/-! The claims. -/

/-- C1: For every conversation with a message list of length n >= 1 and
every prefix fraction f in [0,1], the replay/scoring computation sets the
number of visible messages to max(1, floor(n * f)). -/
theorem visible_count_is_max_one_floor (c : Conversation) (f : ℚ) (r : Rng)
    (hn : 1 ≤ c.messages.length) (h0 : 0 ≤ f) (h1 : f ≤ 1) :
    ((replayRender c f r).count : Int) =
      max 1 ⌊(c.messages.length : ℚ) * f⌋ := by
  show ((max 1 (Int.toNat ⌊(c.messages.length : ℚ) * f⌋) : Nat) : Int) = _
  omega

theorem visible_count_is_max_one_floor_witness :
    ((replayRender sampleConv (1/2) rng0).count : Int) =
      max 1 ⌊((sampleConv.messages.length : ℚ)) * (1/2)⌋ :=
  visible_count_is_max_one_floor sampleConv (1/2) rng0 (by decide)
    (by norm_num) (by norm_num)

/-- C3: For every conversation with n >= 1 messages, scoring at prefix
fraction 0 yields a visible-message count of 1 (never zero) with all factor
scores in [0,100] (scores are naturals, so nonnegative by type), and
scoring at prefix fraction 1 yields a visible-message count of n. -/
theorem score_boundary_behavior (c : Conversation) (r : Rng)
    (hn : 1 ≤ c.messages.length) :
    (replayRender c 0 r).count = 1 ∧
    (∃ l, (replayRender c 0 r).currentInsights = Except.ok l ∧
      ∀ i ∈ l, i.score ≤ 100) ∧
    (replayRender c 1 r).count = c.messages.length := by
  refine ⟨?_, ?_, ?_⟩
  · simp [replayRender, visibleMessageCount]
  · refine ⟨(insightsLoop c (visibleMessageCount c 0) factorIdentities.enum r).1,
      ?_, ?_⟩
    · simp only [replayRender, calculateProgressiveInsights]
      rw [if_neg (by omega)]
    · intro i hi
      exact insightsLoop_scores c _ _ r i hi
  · simp only [replayRender, visibleMessageCount]
    rw [mul_one]
    rw [Int.floor_natCast, Int.toNat_natCast]
    omega

theorem score_boundary_behavior_witness :
    (replayRender sampleConv 0 rng0).count = 1 ∧
    (∃ l, (replayRender sampleConv 0 rng0).currentInsights = Except.ok l ∧
      ∀ i ∈ l, i.score ≤ 100) ∧
    (replayRender sampleConv 1 rng0).count = sampleConv.messages.length :=
  score_boundary_behavior sampleConv rng0 (by decide)

/-- C4: For every conversation and every prefix fraction, replay only
selects a prefix of the message list: the visible messages are exactly the
first visibleMessageCount messages in their original order, and the
underlying message list (the conversation state after the render) is
unchanged. -/
theorem replay_selects_prefix_only (c : Conversation) (f : ℚ) (r : Rng) :
    (replayRender c f r).visibleMessages =
      c.messages.take ((replayRender c f r).count) ∧
    (replayRender c f r).visibleMessages ++
      c.messages.drop ((replayRender c f r).count) = c.messages ∧
    (replayRender c f r).conversation = c :=
  ⟨rfl, List.take_append_drop _ _, rfl⟩

/-- C6: Every Insight returned by the scorer has an integer score in
[0,100] (a natural number at most 100), and for a given conversation the
scorer returns the same ordered set of factor identities at every prefix
fraction — the fixed `factorIdentities` list. -/
theorem insights_bounded_and_factors_fixed (c : Conversation) (f g : ℚ)
    (r r' : Rng) (hn : 1 ≤ c.messages.length) :
    ∃ l l', (calculateProgressiveInsights c f r).1 = Except.ok l ∧
      (calculateProgressiveInsights c g r').1 = Except.ok l' ∧
      (∀ i ∈ l, i.score ≤ 100) ∧
      l.map (fun i => (i.id, i.title)) = factorIdentities ∧
      l'.map (fun i => (i.id, i.title)) = factorIdentities := by
  refine ⟨(insightsLoop c (visibleMessageCount c f) factorIdentities.enum r).1,
    (insightsLoop c (visibleMessageCount c g) factorIdentities.enum r').1,
    ?_, ?_, ?_, ?_, ?_⟩
  · simp only [calculateProgressiveInsights]
    rw [if_neg (by omega)]
  · simp only [calculateProgressiveInsights]
    rw [if_neg (by omega)]
  · intro i hi
    exact insightsLoop_scores c _ _ r i hi
  · rw [insightsLoop_identities]
    exact List.enum_map_snd _
  · rw [insightsLoop_identities]
    exact List.enum_map_snd _

theorem insights_bounded_and_factors_fixed_witness :
    ∃ l l',
      (calculateProgressiveInsights sampleConv (1/4) rng0).1 = Except.ok l ∧
      (calculateProgressiveInsights sampleConv (3/4) rng0).1 = Except.ok l' ∧
      (∀ i ∈ l, i.score ≤ 100) ∧
      l.map (fun i => (i.id, i.title)) = factorIdentities ∧
      l'.map (fun i => (i.id, i.title)) = factorIdentities :=
  insights_bounded_and_factors_fixed sampleConv (1/4) (3/4) rng0 rng0
    (by decide)

/-- C7: With the jitter source seeded to zero, calling the scorer a second
time on the same conversation and the same prefix fraction (threading the
source state returned by the first call) returns a result identical to the
first call: scoring depends only on its arguments, and the disabled jitter
source does not advance. -/
theorem scoring_idempotent_zero_seed (c : Conversation) (f : ℚ) (r : Rng)
    (h : r.seed = 0) :
    calculateProgressiveInsights c f
        ((calculateProgressiveInsights c f r).2) =
      calculateProgressiveInsights c f r := by
  have h2 : (calculateProgressiveInsights c f r).2 = r := by
    simp only [calculateProgressiveInsights]
    split
    · rfl
    · exact insightsLoop_rng_frozen c _ _ r h
  rw [h2]

theorem scoring_idempotent_zero_seed_witness :
    calculateProgressiveInsights sampleConv (1/2)
        ((calculateProgressiveInsights sampleConv (1/2) rng0).2) =
      calculateProgressiveInsights sampleConv (1/2) rng0 :=
  scoring_idempotent_zero_seed sampleConv (1/2) rng0 (by decide)

/-! Helper lemmas about the simulator. -/

theorem simRun_length : ∀ (n : Nat) (a b : Profile) (seq : Nat),
    (simRun a b n seq).length = n := by
  intro n
  induction n with
  | zero => intro a b seq; simp [simRun]
  | succ k ih => intro a b seq; simp [simRun, ih]

theorem simRun_senderId : ∀ (n : Nat) (a b : Profile) (seq i : Nat)
    (h : i < (simRun a b n seq).length),
    ((simRun a b n seq).get ⟨i, h⟩).senderId =
      if i % 2 = 0 then a.id else b.id := by
  intro n
  induction n with
  | zero => intro a b seq i h; simp [simRun] at h
  | succ k ih =>
      intro a b seq i h
      match i with
      | 0 => simp [simRun]
      | i' + 1 =>
          have h' : i' < (simRun b a k (seq + 1)).length := by
            rw [simRun_length] at h ⊢
            omega
          have hget : ((simRun a b (k + 1) seq).get ⟨i' + 1, h⟩).senderId =
              ((simRun b a k (seq + 1)).get ⟨i', h'⟩).senderId := rfl
          rw [hget, ih b a (seq + 1) i' h']
          rcases Nat.mod_two_eq_zero_or_one i' with h2 | h2 <;>
            simp [Nat.add_mod, h2]

/-- C5: Running the simulation between two personas with a maximum of 16
turns produces a Conversation with exactly 16 messages whose senderId
alternates between exactly the two personas, starting with personaA, or
starting with personaB when an optional starter text is supplied. -/
theorem runSimulation_sixteen_alternating (pa pb : Profile)
    (starter : Option String) (hne : pa.id ≠ pb.id) :
    (runSimulation pa pb starter 16).messages.length = 16 ∧
    (∀ i (h : i < (runSimulation pa pb starter 16).messages.length),
      ((runSimulation pa pb starter 16).messages.get ⟨i, h⟩).senderId =
        if starter.isSome then (if i % 2 = 0 then pb.id else pa.id)
        else (if i % 2 = 0 then pa.id else pb.id)) ∧
    (∀ i (h : i < (runSimulation pa pb starter 16).messages.length)
      (h' : i + 1 < (runSimulation pa pb starter 16).messages.length),
      ((runSimulation pa pb starter 16).messages.get ⟨i, h⟩).senderId ≠
        ((runSimulation pa pb starter 16).messages.get ⟨i + 1, h'⟩).senderId)
    := by
  have hsender : ∀ i (h : i < (runSimulation pa pb starter 16).messages.length),
      ((runSimulation pa pb starter 16).messages.get ⟨i, h⟩).senderId =
        if starter.isSome then (if i % 2 = 0 then pb.id else pa.id)
        else (if i % 2 = 0 then pa.id else pb.id) := by
    intro i h
    cases starter with
    | none =>
        simp only [runSimulation, Option.isSome_none] at h ⊢
        rw [simRun_senderId]
        simp
    | some s =>
        simp only [runSimulation, Option.isSome_some] at h ⊢
        rw [simRun_senderId]
        simp
  refine ⟨by simp [runSimulation, simRun_length], hsender, ?_⟩
  intro i h h'
  rw [hsender i h, hsender (i + 1) h']
  rcases Nat.mod_two_eq_zero_or_one i with h2 | h2 <;>
    cases starter <;>
    simp [Nat.add_mod, h2] <;>
    first
      | exact hne
      | exact fun hc => hne hc.symm

theorem runSimulation_sixteen_alternating_witness :
    (runSimulation alice bob none 16).messages.length = 16 ∧
    (∀ i (h : i < (runSimulation alice bob none 16).messages.length),
      ((runSimulation alice bob none 16).messages.get ⟨i, h⟩).senderId =
        if (none : Option String).isSome
        then (if i % 2 = 0 then bob.id else alice.id)
        else (if i % 2 = 0 then alice.id else bob.id)) ∧
    (∀ i (h : i < (runSimulation alice bob none 16).messages.length)
      (h' : i + 1 < (runSimulation alice bob none 16).messages.length),
      ((runSimulation alice bob none 16).messages.get ⟨i, h⟩).senderId ≠
        ((runSimulation alice bob none 16).messages.get ⟨i + 1, h'⟩).senderId)
    :=
  runSimulation_sixteen_alternating alice bob none (by decide)

/-- C8: For any nonempty message list and any nonnegative radius,
buildWindows succeeds and returns exactly one window per input message, and
running it again on equal input yields the identical output. -/
theorem buildWindows_one_window_per_message (pid : String)
    (messages : List Message) (radius : Int)
    (hne : messages ≠ []) (hr : 0 ≤ radius) :
    ∃ ws, buildWindows pid messages radius = Except.ok ws ∧
      ws.length = messages.length ∧
      ∀ (ms : List Message) (rad : Int), ms = messages → rad = radius →
        buildWindows pid ms rad = Except.ok ws := by
  have hcond : ¬ (messages.length = 0 ∨ radius < 0) := by
    push_neg
    exact ⟨fun h => hne (List.length_eq_zero.mp h), hr⟩
  refine ⟨(List.range messages.length).map
      (windowAt pid messages radius.toNat), ?_, ?_, ?_⟩
  · simp only [buildWindows]
    rw [if_neg hcond]
  · simp
  · intro ms rad hm hrad
    subst hm
    subst hrad
    simp only [buildWindows]
    rw [if_neg hcond]

theorem buildWindows_one_window_per_message_witness :
    ∃ ws, buildWindows "alice" sampleMessages 2 = Except.ok ws ∧
      ws.length = sampleMessages.length ∧
      ∀ (ms : List Message) (rad : Int), ms = sampleMessages → rad = 2 →
        buildWindows "alice" ms rad = Except.ok ws :=
  buildWindows_one_window_per_message "alice" sampleMessages 2
    (by decide) (by norm_num)

/-! Helper lemma: mapping a fallible field access over a list on which it
everywhere succeeds. -/

theorem mapM_ok_of_forall {α β : Type} (g : α → Except JsError β) (f : α → β) :
    ∀ (l : List α), (∀ e ∈ l, g e = Except.ok (f e)) →
      l.mapM g = Except.ok (l.map f) := by
  intro l
  induction l with
  | nil => intro _; rfl
  | cons a t ih =>
      intro h
      rw [List.mapM_cons, h a (List.mem_cons_self a t),
        ih (fun e he => h e (List.mem_cons_of_mem a he))]
      rfl

theorem map_specTextOf_id (l : List JSVal)
    (h : ∀ e ∈ l, ∃ s, e = JSVal.str s) :
    l.map (fun e => JSVal.str (specTextOf e)) = l := by
  induction l with
  | nil => rfl
  | cons a t ih =>
      have ht := ih (fun e he => h e (List.mem_cons_of_mem a he))
      obtain ⟨s, rfl⟩ := h a (List.mem_cons_self a t)
      rw [List.map_cons, ht]
      rfl

/-- C2 counterexample: on a mixed payload whose first record is a plain
string and whose second record is an object carrying a text field, the
parser returns the records untouched, so the second output record is the
object itself and not its text string. -/
theorem parse_mixed_not_normalized :
    parseMessages (JSVal.arr
        [JSVal.str "hi", JSVal.obj [("text", JSVal.str "yo")]]) =
      Except.ok [JSVal.str "hi", JSVal.obj [("text", JSVal.str "yo")]] ∧
    JSVal.obj [("text", JSVal.str "yo")] ≠
      JSVal.str (specTextOf (JSVal.obj [("text", JSVal.str "yo")])) :=
  ⟨rfl, fun h => JSVal.noConfusion h⟩

/-- C2 (amended): For every uploaded messages payload that is a homogeneous
ordered sequence of records — either every record a plain string, or every
record an object whose text field is a string, the first record's text
nonempty — the parser accepts the payload and normalizes every record to
its text string, preserving order and producing one output per input
record. -/
theorem parse_normalizes_homogeneous (elems : List JSVal)
    (h : (∀ e ∈ elems, ∃ s, e = JSVal.str s) ∨
         (∃ fs rest s₀,
            elems = JSVal.obj fs :: rest ∧
            (fs.find? (fun p => p.1 == "text")).map Prod.snd =
              some (JSVal.str s₀) ∧
            s₀ ≠ "" ∧
            (∀ e ∈ elems, ∃ gs t, e = JSVal.obj gs ∧
              (gs.find? (fun p => p.1 == "text")).map Prod.snd =
                some (JSVal.str t)))) :
    parseMessages (JSVal.arr elems) =
      Except.ok (elems.map (fun e => JSVal.str (specTextOf e))) := by
  rcases h with hs | ⟨fs, rest, s₀, hcons, hfind, hs0, hall⟩
  · rw [map_specTextOf_id elems hs]
    cases elems with
    | nil => rfl
    | cons e t =>
        obtain ⟨s, rfl⟩ := hs e (List.mem_cons_self e t)
        rfl
  · subst hcons
    have hstep : parseMessages (JSVal.arr (JSVal.obj fs :: rest)) =
        (match getField (JSVal.obj fs) "text" with
         | Except.error e => Except.error e
         | Except.ok t =>
            if truthy t then
              (JSVal.obj fs :: rest).mapM (fun m => getField m "text")
            else Except.ok []) := rfl
    have hget : getField (JSVal.obj fs) "text" = Except.ok (JSVal.str s₀) := by
      simp only [getField, hfind]
      rfl
    have htruthy : truthy (JSVal.str s₀) = true := by
      simp only [truthy, Bool.not_eq_true']
      exact beq_false_of_ne hs0
    rw [hstep, hget]
    simp only [htruthy, if_true]
    apply mapM_ok_of_forall
    intro e he
    obtain ⟨gs, t, rfl, hgt⟩ := hall e he
    have hsp : specTextOf (JSVal.obj gs) = t := by
      simp only [specTextOf, hgt]
    rw [hsp]
    simp only [getField, hgt]
    rfl

theorem parse_normalizes_homogeneous_witness :
    parseMessages (JSVal.arr [JSVal.str "hey", JSVal.str "sup"]) =
      Except.ok ([JSVal.str "hey", JSVal.str "sup"].map
        (fun e => JSVal.str (specTextOf e))) :=
  parse_normalizes_homogeneous [JSVal.str "hey", JSVal.str "sup"]
    (Or.inl (by
      intro e he
      simp only [List.mem_cons, List.not_mem_nil, or_false] at he
      rcases he with rfl | rfl
      · exact ⟨"hey", rfl⟩
      · exact ⟨"sup", rfl⟩))

/-- C10: If the uploaded messages JSON parses but is not one of the two
recognized shapes — an empty array, a non-array value, or an array whose
first element is an object without a truthy text field — handleSave does
not fail: the parsed message list is empty and the request body carries
messages: null, so the profile is still created. -/
theorem unrecognized_shapes_send_null (v : JSVal)
    (h : v = JSVal.arr [] ∨
         (∀ xs, v ≠ JSVal.arr xs) ∨
         (∃ fs rest, v = JSVal.arr (JSVal.obj fs :: rest) ∧
            truthy (((fs.find? (fun p => p.1 == "text")).map
              Prod.snd).getD JSVal.undef) = false)) :
    parseMessages v = Except.ok [] ∧
    handleSaveMessages v = Except.ok none := by
  have hp : parseMessages v = Except.ok [] := by
    rcases h with rfl | hna | ⟨fs, rest, rfl, hfalse⟩
    · rfl
    · cases v with
      | arr xs => exact absurd rfl (hna xs)
      | str s => rfl
      | num q => rfl
      | jsBool b => rfl
      | null => rfl
      | undef => rfl
      | obj fields => rfl
    · have hstep : parseMessages (JSVal.arr (JSVal.obj fs :: rest)) =
          (if truthy (((fs.find? (fun p => p.1 == "text")).map
              Prod.snd).getD JSVal.undef) then
            (JSVal.obj fs :: rest).mapM (fun m => getField m "text")
          else Except.ok []) := rfl
      rw [hstep, if_neg]
      rw [hfalse]
      exact Bool.false_ne_true
  refine ⟨hp, ?_⟩
  rw [handleSaveMessages, hp]
  rfl

theorem unrecognized_shapes_send_null_witness :
    parseMessages (JSVal.arr []) = Except.ok [] ∧
    handleSaveMessages (JSVal.arr []) = Except.ok none :=
  unrecognized_shapes_send_null (JSVal.arr []) (Or.inl rfl)

/-- C9: In both profiles-page variants of handleProfileClick, the
selected-profiles state keeps at most two entries and never holds
duplicates: removal, bounded insertion and oldest-replacement all preserve
the bound of two and distinctness. -/
theorem selection_bounded_and_distinct :
    (∀ (sel : List Profile) (p : Profile), selectionInvariantP sel →
      selectionInvariantP (handleProfileClick sel p)) ∧
    (∀ (sel : List String) (pid : String), selectionInvariant sel →
      selectionInvariant (handleProfileClickIds sel pid)) := by
  constructor
  · rintro sel p ⟨hlen, hnd⟩
    unfold handleProfileClick
    split
    · refine ⟨le_trans (List.length_filter_le _ _) hlen, ?_⟩
      have hsub : List.Sublist
          ((sel.filter (fun q => !(q.id == p.id))).map (fun q => q.id))
          (sel.map (fun q => q.id)) :=
        (List.filter_sublist sel).map _
      exact hnd.sublist hsub
    · rename_i hnf
      split
      · rename_i hlt
        refine ⟨by simp only [List.length_append, List.length_singleton]; omega,
          ?_⟩
        rw [List.map_append, List.nodup_append]
        refine ⟨hnd, by simp, ?_⟩
        intro x hx hx2
        simp only [List.map_cons, List.map_nil, List.mem_singleton] at hx2
        subst hx2
        apply hnf
        rw [List.find?_isSome]
        obtain ⟨q, hq, hqid⟩ := List.mem_map.mp hx
        exact ⟨q, hq, by simp [hqid]⟩
      · exact ⟨hlen, hnd⟩
  · rintro sel pid ⟨hlen, hnd⟩
    unfold handleProfileClickIds
    split
    · exact ⟨le_trans (List.length_filter_le _ _) hlen, hnd.filter _⟩
    · rename_i hnc
      have hmem : pid ∉ sel := by
        intro hin
        exact hnc (by simpa using hin)
      split
      · rename_i hlt
        refine ⟨by simp only [List.length_append, List.length_singleton]; omega,
          ?_⟩
        rw [List.nodup_append]
        refine ⟨hnd, by simp, ?_⟩
        intro x hx hx2
        simp only [List.mem_singleton] at hx2
        subst hx2
        exact hmem hx
      · rename_i hge
        have h1 : 1 < sel.length := by omega
        have hin : sel.getD 1 "" ∈ sel := by
          rw [List.getD_eq_get sel "" h1]
          exact List.get_mem sel 1 h1
        refine ⟨by simp, ?_⟩
        simp only [List.nodup_cons, List.mem_singleton, List.not_mem_nil,
          not_false_iff, List.nodup_nil, and_true]
        intro heq
        exact hmem (heq ▸ hin)

theorem selection_bounded_and_distinct_witness :
    selectionInvariantP (handleProfileClick [alice] bob) ∧
    selectionInvariant (handleProfileClickIds ["alice", "bob"] "carol") :=
  ⟨selection_bounded_and_distinct.1 [alice] bob ⟨by decide, by decide⟩,
   selection_bounded_and_distinct.2 ["alice", "bob"] "carol"
     ⟨by decide, by decide⟩⟩

end VibeCheck
